import Mathlib

/-!
Shallow embedding of the pool controller of the Load_Balancer repository.

The repository has two variants of the controller:
* `scaler/src/docker-load-balancer.ts` (container backend), embedded in
  namespace `DockerLB` below;
* `scaler/src/module/index.ts` (subprocess backend), embedded in namespace
  `ModuleLB` below.

JavaScript numbers that hold request counters and millisecond timestamps are
modelled as `Int` (all arithmetic performed on them in the source is integer
arithmetic); the load metric divides by 1000, so it is modelled as `ℚ`.
Wall-clock reads (`Date.now()`) and network probe outcomes are passed in as
explicit parameters.
-/

/-- Lifecycle status of a docker instance, from `scaler/src/types/index.ts`
(`"starting" | "running" | "stopping" | "stopped"`). -/
inductive ContainerStatus
  | starting
  | running
  | stopping
  | stopped
deriving DecidableEq, Repr

/-- The `DockerInstance` record of `scaler/src/types/index.ts`.  The string
fields `id`, `containerId`, `containerName` are opaque identifiers; they are
modelled as `Nat` tags.  Timestamps (`lastHealth`, `lastRequestTime`) and the
counters are JavaScript numbers, modelled as `Int`. -/
structure DockerInstance where
  id : Nat
  containerId : Nat
  containerName : Nat
  port : Nat
  lastHealth : Int
  isHealthy : Bool
  activeRequests : Int
  totalRequests : Int
  lastRequestTime : Int
  responseTime : Int
  status : ContainerStatus
deriving DecidableEq, Repr

/-- The configuration fields of `AppConfig` (`scaler/src/types/index.ts`) that
the pool controller reads.  Thresholds are compared against the rational load
metric. -/
structure AppConfig where
  minInstances : Nat
  maxInstances : Nat
  scaleUpThreshold : ℚ
  scaleDownThreshold : ℚ
  idleTimeout : Int
deriving Repr

/-- Outcome of one health probe (`checkInstanceHealth`): a 200 response with
the observed wall clock and latency, or one of the three failure paths
(non-200 status, transport error, timeout), all of which only clear
`isHealthy`. -/
inductive ProbeResult
  | ok (now : Int) (responseTime : Int)
  | failStatus
  | failError
  | failTimeout
deriving DecidableEq, Repr

/-- Terminal event of one proxied request in `handleRequest`: the upstream
response stream ended (at wall clock `endTime`), the proxy request errored,
or the 30 s upstream timeout fired.  Per the event wiring of the source,
each dispatched request terminates with exactly one of these. -/
inductive Outcome
  | success (endTime : Int)
  | upstreamError
  | upstreamTimeout
deriving DecidableEq, Repr

namespace DockerLB

/-- `getHealthyInstances` of `docker-load-balancer.ts`:
`this.instances.filter((i) => i.isHealthy && i.status === "running")`. -/
def getHealthyInstances (instances : List DockerInstance) : List DockerInstance :=
  instances.filter (fun i => i.isHealthy && i.status == ContainerStatus.running)

/-- `getInstanceLoad` of `docker-load-balancer.ts`:
`activeRequests + Math.max(0, (responseTime - 100) / 1000)`. -/
def getInstanceLoad (i : DockerInstance) : ℚ :=
  let requestLoad : ℚ := (i.activeRequests : ℚ)
  let responseTimeWeight : ℚ := max 0 (((i.responseTime : ℚ) - 100) / 1000)
  requestLoad + responseTimeWeight

/-- The `healthy.reduce((min, inst) => load(inst) < load(min) ? inst : min)`
step of `pickInstance`: JavaScript `reduce` without an initial value folds
over the tail starting from the head. -/
def leastLoaded (h : DockerInstance) (t : List DockerInstance) : DockerInstance :=
  t.foldl (fun m i => if getInstanceLoad i < getInstanceLoad m then i else m) h

/-- `pickInstance` of `docker-load-balancer.ts`: `null` when no healthy
running instance exists, otherwise the least-loaded healthy instance. -/
def pickInstance (instances : List DockerInstance) : Option DockerInstance :=
  match getHealthyInstances instances with
  | [] => none
  | h :: t => some (leastLoaded h t)

/-- The average load over a list of instances, as computed in `shouldScaleUp`
and `shouldScaleDown`:
`healthy.reduce((sum, i) => sum + load(i), 0) / healthy.length`. -/
def avgLoad (healthy : List DockerInstance) : ℚ :=
  (healthy.foldl (fun sum i => sum + getInstanceLoad i) 0) / (healthy.length : ℚ)

/-- `shouldScaleUp` of `docker-load-balancer.ts`.  Note that both guards are
on the number of healthy running instances, not on the total pool size. -/
def shouldScaleUp (config : AppConfig) (instances : List DockerInstance) : Bool :=
  let healthy := getHealthyInstances instances
  if healthy.length ≥ config.maxInstances then false
  else if healthy.length < config.minInstances then true
  else decide (avgLoad healthy > config.scaleUpThreshold)

/-- `shouldScaleDown` of `docker-load-balancer.ts`. -/
def shouldScaleDown (config : AppConfig) (now : Int) (instances : List DockerInstance) : Bool :=
  let healthy := getHealthyInstances instances
  if healthy.length ≤ config.minInstances then false
  else
    decide (avgLoad healthy < config.scaleDownThreshold) &&
      healthy.any (fun i =>
        decide (now - i.lastRequestTime > config.idleTimeout) && i.activeRequests == 0)

/-- Stable insertion used to model the JavaScript
`sort((a, b) => a.lastRequestTime - b.lastRequestTime)` (stable ascending
sort): an element is inserted before the first strictly later element, so
elements with equal timestamps keep their original (insertion) order. -/
def insertByTime (x : DockerInstance) : List DockerInstance → List DockerInstance
  | [] => [x]
  | y :: ys =>
      if x.lastRequestTime ≤ y.lastRequestTime then x :: y :: ys else y :: insertByTime x ys

/-- Stable ascending sort by `lastRequestTime`, modelling the JavaScript
array sort used when choosing the scale-down candidate. -/
def sortByLastRequestTime : List DockerInstance → List DockerInstance
  | [] => []
  | x :: xs => insertByTime x (sortByLastRequestTime xs)

/-- The scale-down candidate chosen in `autoScale`:
`healthy.filter(i => i.activeRequests === 0).sort((a, b) => a.lastRequestTime - b.lastRequestTime)[0]`. -/
def scaleDownCandidate (instances : List DockerInstance) : Option DockerInstance :=
  (sortByLastRequestTime
    ((getHealthyInstances instances).filter (fun i => i.activeRequests == 0))).head?

/-- `removeInstance` of `docker-load-balancer.ts`: `indexOf` followed by a
one-element `splice` when found, i.e. removal of the first occurrence.  (In
the source, array elements are compared by object reference; the model uses
structural equality, and distinct instances are distinguished by their `id`
tags.)  The container of the removed instance is also terminated via
`dockerManager.removeContainer`; that external effect has no pool state. -/
def removeInstance (inst : DockerInstance) (instances : List DockerInstance) :
    List DockerInstance :=
  instances.erase inst

/-- `getNextPort` of both variants: `return this.nextPort++` — returns the
current counter and leaves the counter incremented.  The counter starts
at 5001. -/
def getNextPort (nextPort : Nat) : Nat × Nat :=
  (nextPort, nextPort + 1)

/-- The ports issued by `k` successive `getNextPort` calls starting from
allocator state `nextPort`. -/
def portsFrom (nextPort : Nat) : Nat → List Nat
  | 0 => []
  | k + 1 =>
      let alloc := getNextPort nextPort
      alloc.1 :: portsFrom alloc.2 k

/-- The `DockerInstance` built by `DockerManager.createContainer`
(`docker-manager.ts`): fresh identity, freshly allocated port, counters at
zero, unhealthy, status `"starting"`, timestamps set to the current wall
clock. -/
def createdInstance (idv containerIdv namev portv : Nat) (now : Int) : DockerInstance :=
  { id := idv
    containerId := containerIdv
    containerName := namev
    port := portv
    lastHealth := now
    isHealthy := false
    activeRequests := 0
    totalRequests := 0
    lastRequestTime := now
    responseTime := 0
    status := ContainerStatus.starting }

/-- `spawnInstance` of `docker-load-balancer.ts`: allocate the next port,
create the container record, and push it onto the pool.  Returns the new
instance, the new pool, and the new allocator state. -/
def spawnInstance (idv containerIdv namev : Nat) (now : Int) (nextPort : Nat)
    (instances : List DockerInstance) : DockerInstance × List DockerInstance × Nat :=
  let alloc := getNextPort nextPort
  let inst := createdInstance idv containerIdv namev alloc.1 now
  (inst, instances ++ [inst], alloc.2)

/-- The effect of one `checkInstanceHealth` call on the probed instance: a
200 response sets `lastHealth`, `isHealthy` and `responseTime`; a non-200
response, a transport error or a probe timeout only set
`isHealthy = false`. -/
def checkInstanceHealth (inst : DockerInstance) (result : ProbeResult) : DockerInstance :=
  match result with
  | ProbeResult.ok now rt => { inst with lastHealth := now, isHealthy := true, responseTime := rt }
  | ProbeResult.failStatus => { inst with isHealthy := false }
  | ProbeResult.failError => { inst with isHealthy := false }
  | ProbeResult.failTimeout => { inst with isHealthy := false }

/-- `healthCheckAll` of `docker-load-balancer.ts`: probe every instance
(outcomes supplied by `probe`), then compute the persistently unhealthy
instances (`!isHealthy && now - lastHealth > 60000`) and remove each of them
with `removeInstance` (which also terminates the container).  Returns the
remaining pool and the list of evicted (terminated) instances. -/
def healthCheckAll (probe : DockerInstance → ProbeResult) (now : Int)
    (instances : List DockerInstance) : List DockerInstance × List DockerInstance :=
  let probed := instances.map (fun i => checkInstanceHealth i (probe i))
  let unhealthyInstances :=
    probed.filter (fun i => !i.isHealthy && decide (now - i.lastHealth > 60000))
  (unhealthyInstances.foldl (fun acc i => removeInstance i acc) probed, unhealthyInstances)

/-- The counter updates performed by `handleRequest` on the chosen instance
before the proxy request is issued: `activeRequests++`, `totalRequests++`,
`lastRequestTime = Date.now()`. -/
def dispatch (now : Int) (inst : DockerInstance) : DockerInstance :=
  { inst with
    activeRequests := inst.activeRequests + 1
    totalRequests := inst.totalRequests + 1
    lastRequestTime := now }

/-- The terminal handlers of `handleRequest` applied to the chosen instance:
on response `end`, `activeRequests = Math.max(0, activeRequests - 1)` and
`responseTime = Date.now() - startTime`; on proxy `error` and on `timeout`,
only the saturating decrement runs. -/
def settle (startTime : Int) (outcome : Outcome) (inst : DockerInstance) : DockerInstance :=
  match outcome with
  | Outcome.success endTime =>
      { inst with
        activeRequests := max 0 (inst.activeRequests - 1)
        responseTime := endTime - startTime }
  | Outcome.upstreamError => { inst with activeRequests := max 0 (inst.activeRequests - 1) }
  | Outcome.upstreamTimeout => { inst with activeRequests := max 0 (inst.activeRequests - 1) }

/-- The immediate action taken by `handleRequest`: either the 503 response
(with its JSON fields `error`, `instances`, `healthy`) or the initiation of
a proxy request to the chosen instance. -/
inductive ProxyAction
  | respond (statusCode : Nat) (error : String) (total : Nat) (healthy : Nat)
  | forward (target : DockerInstance) (startTime : Int)
deriving DecidableEq, Repr

/-- The synchronous part of `handleRequest` of `docker-load-balancer.ts`:
pick an instance; if none, respond 503 with the pool and healthy counts and
touch no instance; otherwise update the chosen instance's counters and
forward. -/
def handleRequest (now : Int) (instances : List DockerInstance) :
    ProxyAction × List DockerInstance :=
  match pickInstance instances with
  | none =>
      (ProxyAction.respond 503 "No healthy backend servers available" instances.length
        (getHealthyInstances instances).length, instances)
  | some inst =>
      (ProxyAction.forward (dispatch now inst) now,
        instances.map (fun i => if i = inst then dispatch now i else i))

/-- Every mutation the source performs on a single instance's record after
its creation: the dispatch counter updates, one terminal request handler,
one health-probe outcome, or a lifecycle status write
(`waitForInstanceReady` / `removeContainer`). -/
inductive Mutation
  | dispatchStep (now : Int)
  | settleStep (startTime : Int) (outcome : Outcome)
  | probeStep (result : ProbeResult)
  | statusStep (status : ContainerStatus)
deriving Repr

/-- Apply one mutation to an instance record. -/
def applyMutation (inst : DockerInstance) : Mutation → DockerInstance
  | Mutation.dispatchStep now => dispatch now inst
  | Mutation.settleStep startTime outcome => settle startTime outcome inst
  | Mutation.probeStep result => checkInstanceHealth inst result
  | Mutation.statusStep s => { inst with status := s }

/-- The instance record reached from creation by a sequence of mutations. -/
def runMutations (inst : DockerInstance) (steps : List Mutation) : DockerInstance :=
  steps.foldl applyMutation inst

end DockerLB

namespace ModuleLB

/-- The `Instance` record of the subprocess variant
(`scaler/src/types/index.ts`, used by `scaler/src/module/index.ts`).  The
`process` handle is opaque and never compared; it is omitted from the
model.  The UUID `id` is modelled as a `Nat` tag. -/
structure Instance where
  id : Nat
  port : Nat
  lastHealth : Int
  isHealthy : Bool
  activeRequests : Int
  totalRequests : Int
  lastRequestTime : Int
  responseTime : Int
deriving DecidableEq, Repr

/-- The effect of one `checkInstanceHealth` call of `module/index.ts` on the
probed instance; identical in shape to the container variant. -/
def checkInstanceHealth (inst : Instance) (result : ProbeResult) : Instance :=
  match result with
  | ProbeResult.ok now rt => { inst with lastHealth := now, isHealthy := true, responseTime := rt }
  | ProbeResult.failStatus => { inst with isHealthy := false }
  | ProbeResult.failError => { inst with isHealthy := false }
  | ProbeResult.failTimeout => { inst with isHealthy := false }

/-- `healthCheckAll` of `module/index.ts`: it probes every instance and
ignores individual failures; unlike the container variant, it performs no
eviction of persistently unhealthy instances — the pool membership is left
exactly as probing leaves it. -/
def healthCheckAll (probe : Instance → ProbeResult) (instances : List Instance) :
    List Instance :=
  instances.map (fun i => checkInstanceHealth i (probe i))

end ModuleLB

/-! Concrete states used to evaluate the definitions on small inputs. -/

/-- A healthy running instance carrying two in-flight requests. -/
def wBusy : DockerInstance :=
  { id := 1, containerId := 1, containerName := 1, port := 5001, lastHealth := 90000
    isHealthy := true, activeRequests := 2, totalRequests := 5, lastRequestTime := 95000
    responseTime := 50, status := ContainerStatus.running }

/-- A healthy running instance with no in-flight requests and an old
last-request timestamp. -/
def wIdle : DockerInstance :=
  { id := 2, containerId := 2, containerName := 2, port := 5002, lastHealth := 90000
    isHealthy := true, activeRequests := 0, totalRequests := 3, lastRequestTime := 1000
    responseTime := 40, status := ContainerStatus.running }

/-- A second idle healthy running instance, more recently used than `wIdle`. -/
def wIdleLater : DockerInstance :=
  { id := 3, containerId := 3, containerName := 3, port := 5003, lastHealth := 90000
    isHealthy := true, activeRequests := 0, totalRequests := 4, lastRequestTime := 2000
    responseTime := 40, status := ContainerStatus.running }

/-- An unhealthy instance whose last successful probe is far in the past. -/
def wStale : DockerInstance :=
  { id := 4, containerId := 4, containerName := 4, port := 5004, lastHealth := 0
    isHealthy := false, activeRequests := 0, totalRequests := 0, lastRequestTime := 0
    responseTime := 0, status := ContainerStatus.running }

/-- A second unhealthy instance. -/
def wStale2 : DockerInstance :=
  { id := 5, containerId := 5, containerName := 5, port := 5005, lastHealth := 0
    isHealthy := false, activeRequests := 0, totalRequests := 0, lastRequestTime := 0
    responseTime := 0, status := ContainerStatus.running }

/-- A configuration whose pool bound equals its minimum: `minInstances = 2`,
`maxInstances = 2`. -/
def cfgTight : AppConfig :=
  { minInstances := 2, maxInstances := 2, scaleUpThreshold := 3
    scaleDownThreshold := 1 / 2, idleTimeout := 30000 }

/-- A configuration with room to grow: `minInstances = 2`, `maxInstances = 3`. -/
def cfgWide : AppConfig :=
  { minInstances := 3, maxInstances := 4, scaleUpThreshold := 3
    scaleDownThreshold := 1 / 2, idleTimeout := 30000 }

/-- A configuration for exercising scale-down: `minInstances = 1`. -/
def cfgDown : AppConfig :=
  { minInstances := 1, maxInstances := 10, scaleUpThreshold := 3
    scaleDownThreshold := 1 / 2, idleTimeout := 30000 }

/-- A subprocess-variant instance that has been unhealthy since time 0. -/
def mwStale : ModuleLB.Instance :=
  { id := 9, port := 5001, lastHealth := 0, isHealthy := false, activeRequests := 0
    totalRequests := 0, lastRequestTime := 0, responseTime := 0 }

/-- The record left in the pool after the container-variant health tick
probes `wBusy` successfully at time 100000 with latency 50. -/
def wBusyProbed : DockerInstance :=
  DockerLB.checkInstanceHealth wBusy (ProbeResult.ok 100000 50)

open DockerLB

/-- The instance returned by the `reduce` step of `pickInstance` is the first
element of `h :: t` attaining the minimal load: there is a decomposition
`h :: t = l₁ ++ r :: l₂` where every element of `l₁` has strictly larger
load and `r` is a global minimum. -/
theorem leastLoaded_first_min :
    ∀ (t : List DockerInstance) (h : DockerInstance),
      ∃ l₁ l₂,
        h :: t = l₁ ++ leastLoaded h t :: l₂ ∧
        (∀ w ∈ l₁, getInstanceLoad (leastLoaded h t) < getInstanceLoad w) ∧
        ∀ w ∈ h :: t, getInstanceLoad (leastLoaded h t) ≤ getInstanceLoad w := by
  intro t
  induction t with
  | nil =>
      intro h
      exact ⟨[], [], rfl, by simp, by simp [leastLoaded]⟩
  | cons x xs ih =>
      intro h
      have hstep : leastLoaded h (x :: xs) =
          leastLoaded (if getInstanceLoad x < getInstanceLoad h then x else h) xs := rfl
      by_cases hx : getInstanceLoad x < getInstanceLoad h
      · rw [hstep, if_pos hx]
        obtain ⟨l₁, l₂, hdec, hlt, hle⟩ := ih x
        have hrx : getInstanceLoad (leastLoaded x xs) ≤ getInstanceLoad x :=
          hle x (List.mem_cons_self x xs)
        refine ⟨h :: l₁, l₂, ?_, ?_, ?_⟩
        · rw [List.cons_append]
          exact congrArg (List.cons h) hdec
        · intro w hw
          rcases List.mem_cons.mp hw with rfl | hw
          · exact lt_of_le_of_lt hrx hx
          · exact hlt w hw
        · intro w hw
          rcases List.mem_cons.mp hw with rfl | hw
          · exact le_of_lt (lt_of_le_of_lt hrx hx)
          · exact hle w hw
      · rw [hstep, if_neg hx]
        obtain ⟨l₁, l₂, hdec, hlt, hle⟩ := ih h
        cases l₁ with
        | nil =>
            rw [List.nil_append] at hdec
            have hr : h = leastLoaded h xs := (List.cons.injEq _ _ _ _ ▸ hdec :
              h = leastLoaded h xs ∧ xs = l₂).1
            refine ⟨[], x :: xs, ?_, by simp, ?_⟩
            · rw [List.nil_append, ← hr]
            · intro w hw
              rw [← hr]
              rcases List.mem_cons.mp hw with rfl | hw
              · exact le_refl _
              · rcases List.mem_cons.mp hw with rfl | hw
                · exact le_of_not_lt hx
                · have := hle w (List.mem_cons_of_mem h hw)
                  rwa [← hr] at this
        | cons a l₁' =>
            rw [List.cons_append] at hdec
            obtain ⟨ha, hxs⟩ := (List.cons.injEq _ _ _ _ ▸ hdec :
              h = a ∧ xs = l₁' ++ leastLoaded h xs :: l₂)
            have hh : getInstanceLoad (leastLoaded h xs) < getInstanceLoad h := by
              have := hlt a (List.mem_cons_self a l₁')
              rwa [← ha] at this
            refine ⟨h :: x :: l₁', l₂, ?_, ?_, ?_⟩
            · rw [List.cons_append, List.cons_append, ← hxs]
            · intro w hw
              rcases List.mem_cons.mp hw with rfl | hw
              · exact hh
              · rcases List.mem_cons.mp hw with rfl | hw
                · exact lt_of_lt_of_le hh (le_of_not_lt hx)
                · exact hlt w (List.mem_cons_of_mem a hw)
            · intro w hw
              rcases List.mem_cons.mp hw with rfl | hw
              · exact le_of_lt hh
              · rcases List.mem_cons.mp hw with rfl | hw
                · exact le_of_lt (lt_of_lt_of_le hh (le_of_not_lt hx))
                · exact hle w (List.mem_cons_of_mem h hw)

/-- Claim C1: whenever some pool worker has `healthy = true` and phase
`Running`, `pickInstance` returns a worker that is healthy and running,
whose load `activeRequests + max(0, (responseTime - 100) / 1000)` is minimal
among all healthy running workers, and that is the earliest-inserted worker
among those attaining the minimum (every healthy running worker listed
before it has strictly larger load). -/
theorem pickInstance_minimal_load (instances : List DockerInstance)
    (hne : ∃ i ∈ instances, i.isHealthy = true ∧ i.status = ContainerStatus.running) :
    ∃ w, pickInstance instances = some w ∧
      w.isHealthy = true ∧ w.status = ContainerStatus.running ∧
      ∃ l₁ l₂, getHealthyInstances instances = l₁ ++ w :: l₂ ∧
        (∀ v ∈ l₁, getInstanceLoad w < getInstanceLoad v) ∧
        ∀ v ∈ getHealthyInstances instances, getInstanceLoad w ≤ getInstanceLoad v := by
  obtain ⟨i, hi, hih, his⟩ := hne
  have hmem : i ∈ getHealthyInstances instances := by
    simp [getHealthyInstances, List.mem_filter, hi, hih, his]
  cases hcase : getHealthyInstances instances with
  | nil => rw [hcase] at hmem; simp at hmem
  | cons h t =>
      have hpick : pickInstance instances = some (leastLoaded h t) := by
        simp [pickInstance, hcase]
      obtain ⟨l₁, l₂, hdec, hlt, hle⟩ := leastLoaded_first_min t h
      have hwmem : leastLoaded h t ∈ getHealthyInstances instances := by
        rw [hcase, hdec]
        exact List.mem_append_right l₁ (List.mem_cons_self _ _)
      have hwprop := List.mem_filter.mp hwmem
      have hwh : (leastLoaded h t).isHealthy = true ∧
          (leastLoaded h t).status = ContainerStatus.running := by
        have := hwprop.2
        simpa [Bool.and_eq_true, beq_iff_eq] using this
      exact ⟨leastLoaded h t, hpick, hwh.1, hwh.2, l₁, l₂, hdec, hlt, hle⟩

/-- Witness for C1 at the concrete pool `[wBusy, wIdle, wIdleLater]`, where
`wIdle` and `wIdleLater` both have load 0 and `wIdle` was inserted first. -/
theorem pickInstance_minimal_load_witness :
    (∃ i ∈ [wBusy, wIdle, wIdleLater],
        i.isHealthy = true ∧ i.status = ContainerStatus.running) ∧
    ∃ w, pickInstance [wBusy, wIdle, wIdleLater] = some w ∧
      w.isHealthy = true ∧ w.status = ContainerStatus.running ∧
      ∃ l₁ l₂, getHealthyInstances [wBusy, wIdle, wIdleLater] = l₁ ++ w :: l₂ ∧
        (∀ v ∈ l₁, getInstanceLoad w < getInstanceLoad v) ∧
        ∀ v ∈ getHealthyInstances [wBusy, wIdle, wIdleLater],
          getInstanceLoad w ≤ getInstanceLoad v :=
  ⟨by decide, pickInstance_minimal_load [wBusy, wIdle, wIdleLater] (by decide)⟩

/-- Claim C2: for a dispatched request (counters incremented by
`handleRequest`), each of the three terminal handlers — response end (502
and 504 excluded), proxy error, proxy timeout — performs the saturating
decrement exactly once, so whichever single handler fires, the worker's
`activeRequests` returns to its pre-dispatch value. -/
theorem settle_dispatch_restores_activeRequests (inst : DockerInstance)
    (now startTime : Int) (outcome : Outcome) (h : 0 ≤ inst.activeRequests) :
    (settle startTime outcome (dispatch now inst)).activeRequests = inst.activeRequests := by
  cases outcome <;> simp [settle, dispatch] <;> omega

/-- Witness for C2: a request dispatched to `wBusy` and terminated by the
upstream-error handler leaves `activeRequests` at its pre-dispatch value. -/
theorem settle_dispatch_restores_activeRequests_witness :
    0 ≤ wBusy.activeRequests ∧
    (settle 95000 Outcome.upstreamError (dispatch 95000 wBusy)).activeRequests =
      wBusy.activeRequests :=
  ⟨by decide,
    settle_dispatch_restores_activeRequests wBusy 95000 95000 Outcome.upstreamError (by decide)⟩

/-- Claim C9: the upstream-error and upstream-timeout handlers of
`handleRequest` decrement `activeRequests` of the chosen worker back to its
pre-dispatch value but leave `responseTime` unchanged; only the
successful-completion handler overwrites `responseTime`, and it writes the
full wall-clock latency `endTime - startTime`. -/
theorem settle_error_paths_frame_responseTime (inst : DockerInstance)
    (now startTime endTime : Int) (h : 0 ≤ inst.activeRequests) :
    (settle startTime Outcome.upstreamError (dispatch now inst)).responseTime =
      inst.responseTime ∧
    (settle startTime Outcome.upstreamTimeout (dispatch now inst)).responseTime =
      inst.responseTime ∧
    (settle startTime Outcome.upstreamError (dispatch now inst)).activeRequests =
      inst.activeRequests ∧
    (settle startTime Outcome.upstreamTimeout (dispatch now inst)).activeRequests =
      inst.activeRequests ∧
    (settle startTime (Outcome.success endTime) (dispatch now inst)).responseTime =
      endTime - startTime := by
  refine ⟨rfl, rfl, ?_, ?_, rfl⟩ <;> simp [settle, dispatch] <;> omega

/-- Witness for C9 at `wBusy` with dispatch time 95000, upstream timeout
fired, and a successful completion at time 95200. -/
theorem settle_error_paths_frame_responseTime_witness :
    0 ≤ wBusy.activeRequests ∧
    (settle 95000 Outcome.upstreamTimeout (dispatch 95000 wBusy)).responseTime =
      wBusy.responseTime ∧
    (settle 95000 (Outcome.success 95200) (dispatch 95000 wBusy)).responseTime =
      95200 - 95000 :=
  ⟨by decide,
    (settle_error_paths_frame_responseTime wBusy 95000 95000 95200 (by decide)).2.1,
    (settle_error_paths_frame_responseTime wBusy 95000 95000 95200 (by decide)).2.2.2.2⟩

/-- Every single mutation the source performs on an instance record keeps
`activeRequests` non-negative: the two decrement sites use
`Math.max(0, activeRequests - 1)`, and no other mutation lowers the
counter. -/
theorem applyMutation_activeRequests_nonneg (inst : DockerInstance) (m : Mutation)
    (h : 0 ≤ inst.activeRequests) : 0 ≤ (applyMutation inst m).activeRequests := by
  cases m with
  | dispatchStep now => simp [applyMutation, dispatch]; omega
  | settleStep startTime outcome =>
      cases outcome <;> simp [applyMutation, settle]
  | probeStep result => cases result <;> simpa [applyMutation, checkInstanceHealth] using h
  | statusStep s => simpa [applyMutation] using h

/-- Claim C7: in every state reachable from instance creation by any
sequence of the source's mutations — including sequences that run the
saturating decrement twice for one dispatch — `activeRequests` stays
non-negative. -/
theorem activeRequests_nonneg_reachable (idv containerIdv namev portv : Nat) (now : Int)
    (steps : List Mutation) :
    0 ≤ (runMutations (createdInstance idv containerIdv namev portv now) steps).activeRequests := by
  have general : ∀ (steps : List Mutation) (inst : DockerInstance),
      0 ≤ inst.activeRequests → 0 ≤ (runMutations inst steps).activeRequests := by
    intro steps
    induction steps with
    | nil => intro inst h; exact h
    | cons m rest ih =>
        intro inst h
        exact ih (applyMutation inst m) (applyMutation_activeRequests_nonneg inst m h)
  exact general steps _ (by simp [createdInstance])

/-- Claim C4: when no pool worker is both healthy and running,
`handleRequest` responds 503 with the error string
`"No healthy backend servers available"`, the total pool size and the
healthy count (zero); it initiates no proxy forward and returns the pool
with every worker's record unchanged. -/
theorem handleRequest_no_healthy_responds_503 (now : Int) (instances : List DockerInstance)
    (h : ∀ i ∈ instances, ¬(i.isHealthy = true ∧ i.status = ContainerStatus.running)) :
    handleRequest now instances =
      (ProxyAction.respond 503 "No healthy backend servers available" instances.length 0,
        instances) := by
  have hnil : getHealthyInstances instances = [] := by
    rw [getHealthyInstances, List.filter_eq_nil_iff]
    intro a ha
    simpa [Bool.and_eq_true, beq_iff_eq] using h a ha
  simp [handleRequest, pickInstance, hnil]

/-- Witness for C4 at the pool `[wStale, wStale2]`, which contains no
healthy worker. -/
theorem handleRequest_no_healthy_responds_503_witness :
    (∀ i ∈ [wStale, wStale2],
        ¬(i.isHealthy = true ∧ i.status = ContainerStatus.running)) ∧
    handleRequest 100000 [wStale, wStale2] =
      (ProxyAction.respond 503 "No healthy backend servers available" 2 0,
        [wStale, wStale2]) :=
  ⟨by decide, handleRequest_no_healthy_responds_503 100000 [wStale, wStale2] (by decide)⟩

/-- Counterexample to claim C3: with `minInstances = maxInstances = 2` and a
pool of two unhealthy workers, the pool size already equals `maxInstances`,
yet `shouldScaleUp` is true (its guards only count healthy running workers),
and the spawn it initiates grows the pool beyond `maxInstances`. -/
theorem shouldScaleUp_ignores_pool_size_cex :
    shouldScaleUp cfgTight [wStale, wStale2] = true ∧
    cfgTight.maxInstances ≤ [wStale, wStale2].length ∧
    cfgTight.maxInstances <
      (spawnInstance 6 6 6 100000 5006 [wStale, wStale2]).2.1.length := by
  refine ⟨by decide, by decide, by decide⟩

/-- Claim C3 as amended: `shouldScaleUp` never initiates a spawn when the
number of healthy running workers is at least `maxInstances`; the guard is
on the healthy count, not the total pool size, so the pool itself may
exceed `maxInstances` while unhealthy workers are present. -/
theorem shouldScaleUp_requires_healthy_below_max (config : AppConfig)
    (instances : List DockerInstance) (h : shouldScaleUp config instances = true) :
    (getHealthyInstances instances).length < config.maxInstances := by
  by_cases hge : (getHealthyInstances instances).length ≥ config.maxInstances
  · exfalso
    simp [shouldScaleUp, hge] at h
  · omega

/-- Witness for the amended C3: with `minInstances = 3`, `maxInstances = 4`
and one healthy worker, `shouldScaleUp` fires and the healthy count is
below `maxInstances`. -/
theorem shouldScaleUp_requires_healthy_below_max_witness :
    shouldScaleUp cfgWide [wBusy] = true ∧
    (getHealthyInstances [wBusy]).length < cfgWide.maxInstances :=
  ⟨by decide, shouldScaleUp_requires_healthy_below_max cfgWide [wBusy] (by decide)⟩

/-- Every port issued from allocator state `s` is at least `s`. -/
theorem portsFrom_le_mem : ∀ (k s : Nat), ∀ p ∈ portsFrom s k, s ≤ p := by
  intro k
  induction k with
  | zero => intro s p hp; simp [portsFrom] at hp
  | succ n ih =>
      intro s p hp
      rcases List.mem_cons.mp hp with rfl | hp
      · exact le_refl _
      · exact le_of_lt (lt_of_lt_of_le (Nat.lt_succ_self s) (ih (s + 1) p hp))

/-- The ports issued by successive allocations are pairwise strictly
increasing in issuance order. -/
theorem portsFrom_pairwise_lt : ∀ (k s : Nat), (portsFrom s k).Pairwise (· < ·) := by
  intro k
  induction k with
  | zero => intro s; simp [portsFrom]
  | succ n ih =>
      intro s
      refine List.Pairwise.cons ?_ (ih (s + 1))
      intro p hp
      exact lt_of_lt_of_le (Nat.lt_succ_self s) (portsFrom_le_mem n (s + 1) p hp)

/-- Claim C8: the allocator `nextPort++` starting at 5001 issues ports in
strictly increasing order (hence never reissues one within a controller
lifetime), and any pool whose workers took their ports from distinct
allocations — i.e. whose port list is a subsequence of the issued list —
has pairwise distinct ports. -/
theorem ports_strictly_increasing_and_nodup (k : Nat) :
    (portsFrom 5001 k).Pairwise (· < ·) ∧
    ∀ poolPorts : List Nat, poolPorts.Sublist (portsFrom 5001 k) → poolPorts.Nodup := by
  refine ⟨portsFrom_pairwise_lt k 5001, ?_⟩
  intro poolPorts hsub
  exact List.Sublist.nodup hsub (List.Pairwise.imp ne_of_lt (portsFrom_pairwise_lt k 5001))

/-- Witness for C8: with four allocations, the port list of a pool that
kept the first and third issued ports is duplicate-free. -/
theorem ports_strictly_increasing_and_nodup_witness :
    [5001, 5003].Sublist (portsFrom 5001 4) ∧ List.Nodup [5001, 5003] :=
  ⟨by decide, (ports_strictly_increasing_and_nodup 4).2 [5001, 5003] (by decide)⟩

/-- Claim C10: `removeInstance` (indexOf + splice) is idempotent on pool
membership: removing a worker that is absent leaves the pool unchanged (and
raises no error — the model is a total function), removing the same worker
twice equals removing it once (workers occur at most once, being distinct
object references in the source), and every other worker's record and
multiplicity are untouched. -/
theorem removeInstance_membership_idempotent (inst : DockerInstance)
    (instances : List DockerInstance) :
    (inst ∉ instances → removeInstance inst instances = instances) ∧
    (instances.count inst ≤ 1 →
      removeInstance inst (removeInstance inst instances) = removeInstance inst instances) ∧
    ∀ other, other ≠ inst →
      (removeInstance inst instances).count other = instances.count other := by
  refine ⟨fun hn => List.erase_of_not_mem hn, fun hc => ?_, fun other hne => ?_⟩
  · apply List.erase_of_not_mem
    intro hmem
    have hcount := List.count_erase_self inst instances
    have hpos : 0 < (instances.erase inst).count inst := List.count_pos_iff.mpr hmem
    omega
  · exact List.count_erase_of_ne hne instances

/-- Witness for C10 at the pool `[wBusy, wIdle]` and the absent worker
`wStale`. -/
theorem removeInstance_membership_idempotent_witness :
    (wStale ∉ [wBusy, wIdle] ∧ removeInstance wStale [wBusy, wIdle] = [wBusy, wIdle]) ∧
    ([wBusy, wIdle].count wBusy ≤ 1 ∧
      removeInstance wBusy (removeInstance wBusy [wBusy, wIdle]) =
        removeInstance wBusy [wBusy, wIdle]) ∧
    (wIdle ≠ wBusy ∧
      (removeInstance wBusy [wBusy, wIdle]).count wIdle = [wBusy, wIdle].count wIdle) :=
  ⟨⟨by decide, (removeInstance_membership_idempotent wStale [wBusy, wIdle]).1 (by decide)⟩,
    ⟨by decide, (removeInstance_membership_idempotent wBusy [wBusy, wIdle]).2.1 (by decide)⟩,
    ⟨by decide, (removeInstance_membership_idempotent wBusy [wBusy, wIdle]).2.2 wIdle
      (by decide)⟩⟩

/-- Stable insertion grows the list length by one. -/
theorem insertByTime_length (x : DockerInstance) :
    ∀ l : List DockerInstance, (insertByTime x l).length = l.length + 1 := by
  intro l
  induction l with
  | nil => simp [insertByTime]
  | cons y ys ih =>
      rw [insertByTime]
      split
      · simp
      · simp [ih]

/-- The stable sort preserves the list length. -/
theorem sortByTime_length :
    ∀ l : List DockerInstance, (sortByLastRequestTime l).length = l.length := by
  intro l
  induction l with
  | nil => rfl
  | cons x xs ih => rw [sortByLastRequestTime, insertByTime_length, ih]; rfl

/-- The head of the stable ascending sort is the first element of the
original list attaining the minimal `lastRequestTime`. -/
theorem sortByTime_head_first_min :
    ∀ (l : List DockerInstance) (c : DockerInstance),
      (sortByLastRequestTime l).head? = some c →
      ∃ l₁ l₂, l = l₁ ++ c :: l₂ ∧
        (∀ w ∈ l₁, c.lastRequestTime < w.lastRequestTime) ∧
        ∀ w ∈ l, c.lastRequestTime ≤ w.lastRequestTime := by
  intro l
  induction l with
  | nil => intro c hc; simp [sortByLastRequestTime] at hc
  | cons x xs ih =>
      intro c hc
      rw [sortByLastRequestTime] at hc
      cases hs : sortByLastRequestTime xs with
      | nil =>
          have hxs : xs = [] := by
            have hlen := sortByTime_length xs
            rw [hs] at hlen
            exact (List.length_eq_zero.mp hlen.symm)
          rw [hs] at hc
          simp only [insertByTime, List.head?_cons, Option.some.injEq] at hc
          subst hc
          subst hxs
          exact ⟨[], [], rfl, by simp, by simp⟩
      | cons y ys =>
          rw [hs] at hc
          have hyhead : (sortByLastRequestTime xs).head? = some y := by rw [hs]; rfl
          obtain ⟨m₁, m₂, hdec, hlt, hle⟩ := ih y hyhead
          by_cases hxy : x.lastRequestTime ≤ y.lastRequestTime
          · rw [insertByTime, if_pos hxy] at hc
            simp only [List.head?_cons, Option.some.injEq] at hc
            subst hc
            refine ⟨[], xs, rfl, by simp, ?_⟩
            intro w hw
            rcases List.mem_cons.mp hw with rfl | hw
            · exact le_refl _
            · exact le_trans hxy (hle w hw)
          · rw [insertByTime, if_neg hxy] at hc
            simp only [List.head?_cons, Option.some.injEq] at hc
            subst hc
            refine ⟨x :: m₁, m₂, ?_, ?_, ?_⟩
            · rw [List.cons_append]
              exact congrArg (List.cons x) hdec
            · intro w hw
              rcases List.mem_cons.mp hw with rfl | hw
              · exact lt_of_not_le hxy
              · exact hlt w hw
            · intro w hw
              rcases List.mem_cons.mp hw with rfl | hw
              · exact le_of_lt (lt_of_not_le hxy)
              · exact hle w hw

/-- Erasing an element satisfying the filter predicate commutes with
filtering. -/
theorem filter_erase_comm {α : Type} [DecidableEq α] (p : α → Bool) (c : α)
    (hc : p c = true) :
    ∀ l : List α, (l.erase c).filter p = (l.filter p).erase c := by
  intro l
  induction l with
  | nil => simp
  | cons x xs ih =>
      by_cases hxc : x = c
      · subst hxc
        rw [List.erase_cons_head, List.filter_cons_of_pos hc, List.erase_cons_head]
      · have herase : (x :: xs).erase c = x :: xs.erase c := by
          rw [List.erase_cons]
          simp [hxc]
        rw [herase]
        cases hp : p x with
        | true =>
            rw [List.filter_cons_of_pos hp, List.filter_cons_of_pos hp]
            have herase2 : (x :: xs.filter p).erase c = x :: (xs.filter p).erase c := by
              rw [List.erase_cons]
              simp [hxc]
            rw [herase2, ih]
        | false =>
            rw [List.filter_cons_of_neg (by simp [hp]), List.filter_cons_of_neg (by simp [hp]),
              ih]

/-- Claim C5: whenever `shouldScaleDown` fires, the healthy running count
strictly exceeds `minInstances`, the average load over healthy running
workers is below `scaleDownThreshold`, and some healthy running worker is
idle (`activeRequests = 0` and `now - lastRequestTime > idleTimeout`);
moreover the candidate `autoScale` removes exists, has `activeRequests = 0`,
itself satisfies the idle-timeout condition, has the oldest
`lastRequestTime` among the zero-active healthy workers (strictly oldest
among those listed before it), and its removal leaves the healthy count at
or above `minInstances`. -/
theorem scaleDown_conditions_and_candidate (config : AppConfig) (now : Int)
    (instances : List DockerInstance)
    (h : shouldScaleDown config now instances = true) :
    config.minInstances < (getHealthyInstances instances).length ∧
    avgLoad (getHealthyInstances instances) < config.scaleDownThreshold ∧
    (∃ i ∈ getHealthyInstances instances,
      i.activeRequests = 0 ∧ config.idleTimeout < now - i.lastRequestTime) ∧
    ∃ c, scaleDownCandidate instances = some c ∧
      c ∈ getHealthyInstances instances ∧ c.activeRequests = 0 ∧
      config.idleTimeout < now - c.lastRequestTime ∧
      (∀ w ∈ getHealthyInstances instances, w.activeRequests = 0 →
        c.lastRequestTime ≤ w.lastRequestTime) ∧
      config.minInstances ≤ (getHealthyInstances (removeInstance c instances)).length := by
  by_cases hlen : (getHealthyInstances instances).length ≤ config.minInstances
  · exfalso
    simp [shouldScaleDown, hlen] at h
  · have hcore : avgLoad (getHealthyInstances instances) < config.scaleDownThreshold ∧
        ∃ i ∈ getHealthyInstances instances,
          config.idleTimeout < now - i.lastRequestTime ∧ i.activeRequests = 0 := by
      simpa [shouldScaleDown, hlen, Bool.and_eq_true, decide_eq_true_eq,
        List.any_eq_true, beq_iff_eq] using h
    obtain ⟨havg, i, hiMem, hiIdle, hiZero⟩ := hcore
    have hiZeroActive :
        i ∈ (getHealthyInstances instances).filter (fun j => j.activeRequests == 0) :=
      List.mem_filter.mpr ⟨hiMem, by simp [hiZero]⟩
    have hne : (sortByLastRequestTime
        ((getHealthyInstances instances).filter (fun j => j.activeRequests == 0))) ≠ [] := by
      intro hnil
      have := sortByTime_length
        ((getHealthyInstances instances).filter (fun j => j.activeRequests == 0))
      rw [hnil] at this
      have hempty := List.length_eq_zero.mp this.symm
      rw [hempty] at hiZeroActive
      simp at hiZeroActive
    obtain ⟨c, hc⟩ : ∃ c, scaleDownCandidate instances = some c := by
      rw [scaleDownCandidate]
      cases hcase : sortByLastRequestTime
          ((getHealthyInstances instances).filter (fun j => j.activeRequests == 0)) with
      | nil => exact absurd hcase hne
      | cons a rest => exact ⟨a, by simp⟩
    obtain ⟨l₁, l₂, hdec, hltFirst, hleAll⟩ :=
      sortByTime_head_first_min
        ((getHealthyInstances instances).filter (fun j => j.activeRequests == 0)) c hc
    have hcZeroActive :
        c ∈ (getHealthyInstances instances).filter (fun j => j.activeRequests == 0) := by
      rw [hdec]
      exact List.mem_append_right l₁ (List.mem_cons_self _ _)
    have hcMem : c ∈ getHealthyInstances instances := (List.mem_filter.mp hcZeroActive).1
    have hcZero : c.activeRequests = 0 := by
      have := (List.mem_filter.mp hcZeroActive).2
      simpa using this
    have hcIdle : config.idleTimeout < now - c.lastRequestTime := by
      have hct : c.lastRequestTime ≤ i.lastRequestTime := hleAll i hiZeroActive
      omega
    have hcPred : (c.isHealthy && c.status == ContainerStatus.running) = true :=
      (List.mem_filter.mp hcMem).2
    have hAfter : getHealthyInstances (removeInstance c instances) =
        (getHealthyInstances instances).erase c := by
      rw [removeInstance, getHealthyInstances, getHealthyInstances]
      exact filter_erase_comm _ c hcPred instances
    have hAfterLen : (getHealthyInstances (removeInstance c instances)).length =
        (getHealthyInstances instances).length - 1 := by
      rw [hAfter]
      exact List.length_erase_of_mem hcMem
    refine ⟨by omega, havg, ⟨i, hiMem, hiZero, hiIdle⟩, c, hc, hcMem, hcZero, hcIdle, ?_, ?_⟩
    · intro w hwMem hwZero
      exact hleAll w (List.mem_filter.mpr ⟨hwMem, by simp [hwZero]⟩)
    · omega

/-- Witness for C5: with `minInstances = 1` and two idle healthy workers,
`shouldScaleDown` fires and the candidate is `wIdle`, the older of the two
idle workers. -/
theorem scaleDown_conditions_and_candidate_witness :
    shouldScaleDown cfgDown 100000 [wIdle, wIdleLater] = true ∧
    (cfgDown.minInstances < (getHealthyInstances [wIdle, wIdleLater]).length ∧
      avgLoad (getHealthyInstances [wIdle, wIdleLater]) < cfgDown.scaleDownThreshold ∧
      (∃ i ∈ getHealthyInstances [wIdle, wIdleLater],
        i.activeRequests = 0 ∧ cfgDown.idleTimeout < 100000 - i.lastRequestTime) ∧
      ∃ c, scaleDownCandidate [wIdle, wIdleLater] = some c ∧
        c ∈ getHealthyInstances [wIdle, wIdleLater] ∧ c.activeRequests = 0 ∧
        cfgDown.idleTimeout < 100000 - c.lastRequestTime ∧
        (∀ w ∈ getHealthyInstances [wIdle, wIdleLater], w.activeRequests = 0 →
          c.lastRequestTime ≤ w.lastRequestTime) ∧
        cfgDown.minInstances ≤
          (getHealthyInstances (removeInstance c [wIdle, wIdleLater])).length) := by
  have hdown : shouldScaleDown cfgDown 100000 [wIdle, wIdleLater] = true := by
    norm_num [shouldScaleDown, getHealthyInstances, avgLoad, getInstanceLoad, wIdle,
      wIdleLater, cfgDown]
  exact ⟨hdown, scaleDown_conditions_and_candidate cfgDown 100000 [wIdle, wIdleLater] hdown⟩

/-- Folding first-occurrence erasure of elements that all satisfy `p` over a
list headed by an element violating `p` never erases that head. -/
theorem foldl_erase_cons_of_pred {α : Type} [DecidableEq α] (p : α → Bool) (x : α)
    (hx : p x = false) :
    ∀ (ys l : List α), (∀ y ∈ ys, p y = true) →
      List.foldl (fun acc i => acc.erase i) (x :: l) ys =
        x :: List.foldl (fun acc i => acc.erase i) l ys := by
  intro ys
  induction ys with
  | nil => intro l _; rfl
  | cons y ys' ih =>
      intro l hall
      have hxy : x ≠ y := by
        intro he
        have := hall y (List.mem_cons_self y ys')
        rw [← he, hx] at this
        exact Bool.false_ne_true this
      have herase : (x :: l).erase y = x :: l.erase y := by
        rw [List.erase_cons]
        simp [hxy]
      rw [List.foldl_cons, List.foldl_cons, herase]
      exact ih (l.erase y) (fun z hz => hall z (List.mem_cons_of_mem y hz))

/-- Erasing, one by one, every element of `l.filter p` from `l` yields
exactly the elements of `l` violating `p`: the removal loop of the
container-variant health tick evicts precisely the filtered instances. -/
theorem foldl_erase_filter {α : Type} [DecidableEq α] (p : α → Bool) :
    ∀ l : List α,
      List.foldl (fun acc i => acc.erase i) l (l.filter p) = l.filter (fun i => !p i) := by
  intro l
  induction l with
  | nil => rfl
  | cons x xs ih =>
      cases hp : p x with
      | true =>
          rw [List.filter_cons_of_pos hp, List.foldl_cons, List.erase_cons_head,
            List.filter_cons_of_neg (by simp [hp])]
          exact ih
      | false =>
          rw [List.filter_cons_of_neg (by simp [hp]),
            foldl_erase_cons_of_pred p x hp (xs.filter p) xs
              (fun y hy => (List.mem_filter.mp hy).2),
            List.filter_cons_of_pos (by simp [hp]), ih]

/-- Counterexample to claim C6: the subprocess-variant health tick
(`module/index.ts`) performs no eviction at all — a worker that is
unhealthy and whose last successful probe lies more than 60000 ms in the
past survives the tick unchanged. -/
theorem moduleHealthCheckAll_keeps_stale_cex :
    ModuleLB.healthCheckAll (fun _ => ProbeResult.failError) [mwStale] = [mwStale] ∧
    mwStale.isHealthy = false ∧ 60000 < (100000 : Int) - mwStale.lastHealth := by
  refine ⟨by decide, rfl, by decide⟩

/-- Claim C6 as amended (container variant): after a
`DockerLoadBalancer.healthCheckAll` tick, the remaining pool is exactly the
probed pool minus every worker with `healthy = false` and
`now - lastHealth > 60000`; those workers, and only those, are evicted and
their containers terminated, so no stale unhealthy worker remains. -/
theorem dockerHealthCheckAll_evicts_stale (probe : DockerInstance → ProbeResult)
    (now : Int) (instances : List DockerInstance) :
    (healthCheckAll probe now instances).1 =
      (instances.map (fun i => checkInstanceHealth i (probe i))).filter
        (fun i => !(!i.isHealthy && decide (now - i.lastHealth > 60000))) ∧
    (healthCheckAll probe now instances).2 =
      (instances.map (fun i => checkInstanceHealth i (probe i))).filter
        (fun i => !i.isHealthy && decide (now - i.lastHealth > 60000)) ∧
    ∀ i ∈ (healthCheckAll probe now instances).1,
      ¬(i.isHealthy = false ∧ 60000 < now - i.lastHealth) := by
  have h1 : (healthCheckAll probe now instances).1 =
      (instances.map (fun i => checkInstanceHealth i (probe i))).filter
        (fun i => !(!i.isHealthy && decide (now - i.lastHealth > 60000))) := by
    simp only [healthCheckAll, removeInstance]
    exact foldl_erase_filter _ _
  refine ⟨h1, rfl, ?_⟩
  intro i hi
  rw [h1] at hi
  have hpred := (List.mem_filter.mp hi).2
  rintro ⟨hhf, hstale⟩
  simp [hhf, hstale] at hpred

/-- Witness for the amended C6: probing the pool `[wBusy]` successfully at
time 100000 leaves the probed record in the pool, and that record is not a
stale unhealthy worker. -/
theorem dockerHealthCheckAll_evicts_stale_witness :
    wBusyProbed ∈ (healthCheckAll (fun _ => ProbeResult.ok 100000 50) 100000 [wBusy]).1 ∧
    ¬(wBusyProbed.isHealthy = false ∧ (60000 : Int) < 100000 - wBusyProbed.lastHealth) :=
  ⟨by decide,
    (dockerHealthCheckAll_evicts_stale (fun _ => ProbeResult.ok 100000 50) 100000
      [wBusy]).2.2 wBusyProbed (by decide)⟩
